import Mathlib

/-!
# chaos-bot: target lifecycle and recovery tracking

A shallow embedding of `web/api/v1/api.go`: the Start / Stop handlers of
`ServiceManager` and `DockerManager`, the helpers `startTarget`, `stopTarget`,
`prepareResponse`, `respSuccess`, `respFail`, and `StrategyManager.Recover`.

* A Go `error` is `Option GoError`; `none` is the nil error.
* The tracker (`*cache.Cache` of `github.com/patrickmn/go-cache`, built with
  `cache.New(0, 0)`, hence without expiration) is an association list; a Go map
  holds each key once, which is the predicate `Cache.WF`.
* `target.Start()` and `target.Stop()` belong to the capability packages
  (`common/service`, `common/docker`); their outcome `(message, err)` is a
  parameter of every operation.
* Go leaves the iteration order of a map unspecified: `Recover` takes the order
  in which the keys of the `Items()` snapshot are visited as a parameter.
* A run-time panic (the type assertion on a nil interface value in `Recover`)
  is the result `none`.
* Logging has no effect on the tracker or on the returned values and is left out.
-/

namespace ChaosBot

/-! ## Errors (`error`, `github.com/pkg/errors`) -/

/-- A non-nil Go error value: either an error produced by a capability, carrying
its text, or the result of `errors.Wrap`, carrying the wrapped cause and the
added message. -/
inductive GoError where
  | leaf (text : String)
  | withMessage (cause : GoError) (msg : String)
  deriving DecidableEq, Repr

/-- The method `Error()`: for a wrapped error, `msg + ": " + cause.Error()`. -/
def GoError.Error : GoError → String
  | .leaf text => text
  | .withMessage cause msg => msg ++ ": " ++ cause.Error

/-- The function `errors.Wrap(err, message)` of `github.com/pkg/errors`:
"If err is nil, Wrap returns nil"; otherwise the error annotated with `message`. -/
def errors.Wrap (err : Option GoError) (message : String) : Option GoError :=
  match err with
  | none => none
  | some e => some (GoError.withMessage e message)

/-! ## Targets (`common.Target`, `service.Service`, `docker.Docker`) -/

/-- The two implementations of `common.Target` built by the handlers. -/
inductive Kind where
  | service
  | docker
  deriving DecidableEq, Repr

/-- A target as constructed by a handler: `&service.Service{JobName, Name, Logger}`
or `&docker.Docker{JobName, Name, Logger}`. -/
structure Target where
  kind : Kind
  JobName : String
  Name : String
  deriving DecidableEq, Repr

/-- The pair `(message, err)` returned by `target.Start()` or `target.Stop()`. -/
abbrev Outcome := String × Option GoError

/-! ## The tracker (`cache.Cache`) -/

/-- The items of the cache, one pair per stored key. -/
abbrev Cache := List (String × Target)

/-- The keys stored in the cache. -/
def Cache.keys (c : Cache) : List String := c.map Prod.fst

/-- A Go map holds every key at most once. -/
def Cache.WF (c : Cache) : Prop := (Cache.keys c).Nodup

/-- The method `Get(k)`: the stored value and `true`, or `nil` and `false`. -/
def Cache.Get : Cache → String → Option Target
  | [], _ => none
  | (k', t) :: rest, k => if k' = k then some t else Cache.Get rest k

/-- The method `Delete(k)`: removes the key; a no-op when the key is absent. -/
def Cache.Delete (c : Cache) (k : String) : Cache :=
  c.filter (fun e => decide (e.1 ≠ k))

/-- The method `Add(k, x, 0)`: stores the value only if no item is stored under
the key; otherwise returns the error `Item k already exists` and leaves the
cache as it was. -/
def Cache.Add (c : Cache) (k : String) (x : Target) : Option GoError × Cache :=
  match Cache.Get c k with
  | some _ => (some (GoError.leaf ("Item " ++ k ++ " already exists")), c)
  | none => (none, c ++ [(k, x)])

/-- The method `Items()`: a copy of the stored items (none ever expires). -/
def Cache.Items (c : Cache) : List (String × Target) := c

/-- The method `ItemCount()`. -/
def Cache.ItemCount (c : Cache) : Nat := c.length

/-! ## Responses (`proto.StatusResponse`, `proto.ResolveResponse`) -/

/-- The enumeration `proto.StatusResponse_Status`. -/
inductive Status where
  | SUCCESS
  | FAIL
  deriving DecidableEq, Repr

/-- The message `proto.StatusResponse`. -/
structure StatusResponse where
  Status : Status
  Message : String
  deriving DecidableEq, Repr

/-- The message `proto.ResolveResponse`. -/
structure ResolveResponse where
  Response : List StatusResponse
  deriving DecidableEq, Repr

/-- The function `respSuccess`. -/
def respSuccess (message : String) : StatusResponse × Option GoError :=
  ({ Status := Status.SUCCESS, Message := message }, none)

/-- The function `respFail`. -/
def respFail (message : String) (err : GoError) : StatusResponse × Option GoError :=
  ({ Status := Status.FAIL, Message := message }, some err)

/-- The function `prepareResponse`. -/
def prepareResponse (message : String) (err : Option GoError) :
    StatusResponse × Option GoError :=
  match err with
  | some e => respFail message e
  | none => respSuccess message

/-! ## Start and Stop -/

/-- The function `startTarget`; `started` is what `target.Start()` returned.
Yields the returned pair and the cache after the call. -/
def startTarget (started : Outcome) (cache : Cache) (name : String) : Outcome × Cache :=
  match started.2 with
  | none => (started, Cache.Delete cache name)
  | some _ => (started, cache)

/-- The function `stopTarget`; `stopped` is what `target.Stop()` returned.
The error of `cache.Add` is only logged. -/
def stopTarget (target : Target) (stopped : Outcome) (cache : Cache) (name : String) :
    Outcome × Cache :=
  match stopped.2 with
  | none => (stopped, (Cache.Add cache name target).2)
  | some _ => (stopped, cache)

/-- The request messages `proto.ServiceRequest` and `proto.DockerRequest`. -/
structure Request where
  JobName : String
  Name : String
  deriving DecidableEq, Repr

/-- The result of a handler: the response, the error, and the cache afterwards. -/
abbrev Reply := (StatusResponse × Option GoError) × Cache

/-- The method `ServiceManager.Start`; `start` gives the outcome of `Start()` on
the target built from the request. -/
def ServiceManager.Start (start : Target → Outcome) (cache : Cache) (req : Request) : Reply :=
  let serviceManage : Target := { kind := Kind.service, JobName := req.JobName, Name := req.Name }
  let r := startTarget (start serviceManage) cache req.Name
  (prepareResponse r.1.1 r.1.2, r.2)

/-- The method `ServiceManager.Stop`. -/
def ServiceManager.Stop (stop : Target → Outcome) (cache : Cache) (req : Request) : Reply :=
  let serviceManage : Target := { kind := Kind.service, JobName := req.JobName, Name := req.Name }
  let r := stopTarget serviceManage (stop serviceManage) cache req.Name
  (prepareResponse r.1.1 r.1.2, r.2)

/-- The method `DockerManager.Start`. -/
def DockerManager.Start (start : Target → Outcome) (cache : Cache) (req : Request) : Reply :=
  let dockerManage : Target := { kind := Kind.docker, JobName := req.JobName, Name := req.Name }
  let r := startTarget (start dockerManage) cache req.Name
  (prepareResponse r.1.1 r.1.2, r.2)

/-- The method `DockerManager.Stop`. -/
def DockerManager.Stop (stop : Target → Outcome) (cache : Cache) (req : Request) : Reply :=
  let dockerManage : Target := { kind := Kind.docker, JobName := req.JobName, Name := req.Name }
  let r := stopTarget dockerManage (stop dockerManage) cache req.Name
  (prepareResponse r.1.1 r.1.2, r.2)

/-! ## Recover -/

/-- The variables of the loop of `Recover`: the cache, `err`, `responses`. -/
structure LoopState where
  cache : Cache
  err : Option GoError
  responses : List StatusResponse
  deriving DecidableEq, Repr

/-- One iteration of the loop of `Recover` for the key `item`. `start item t` is
the outcome of `Start()` on the value `t` stored under `item`. When `Get` does
not find the key, the type assertion on the nil value panics: `none`. -/
def recoverStep (start : String → Target → Outcome) (st : LoopState) (item : String) :
    Option LoopState :=
  match Cache.Get st.cache item with
  | none => none
  | some target =>
    let started := start item target
    let message := started.1
    let startErr := started.2
    let cache1 := match startErr with
      | none => Cache.Delete st.cache item
      | some _ => st.cache
    let err1 := match startErr with
      | none => st.err
      | some e => errors.Wrap st.err e.Error
    let r := prepareResponse message err1
    let err2 := match r.2 with
      | some respErr => errors.Wrap err1 respErr.Error
      | none => err1
    some { cache := cache1, err := err2, responses := st.responses ++ [r.1] }

/-- The loop of `Recover` over the keys in the order they are visited. -/
def recoverLoop (start : String → Target → Outcome) : List String → LoopState → Option LoopState
  | [], st => some st
  | item :: rest, st =>
    match recoverStep start st item with
    | none => none
    | some st1 => recoverLoop start rest st1

/-- The method `StrategyManager.Recover`. `order` is the order in which the keys
of the snapshot `Items()` are visited. Yields the response, the aggregated
error and the cache afterwards, or `none` on a panic. -/
def StrategyManager.Recover (start : String → Target → Outcome) (cache : Cache)
    (order : List String) : Option ((ResolveResponse × Option GoError) × Cache) :=
  match recoverLoop start order { cache := cache, err := none, responses := [] } with
  | none => none
  | some st => some (({ Response := st.responses }, st.err), st.cache)

/-- The orders in which a `range` over the snapshot `Items()` can visit the keys:
every key of the snapshot exactly once. -/
def IterationOrder (cache : Cache) (order : List String) : Prop :=
  order.Perm ((Cache.Items cache).map Prod.fst)

instance (c : Cache) : Decidable (Cache.WF c) := by
  unfold Cache.WF
  infer_instance

instance (c : Cache) (order : List String) : Decidable (IterationOrder c order) := by
  unfold IterationOrder
  infer_instance

/-! ## Auxiliary functions for the statements about `Recover` -/

/-- Whether the `Start()` made by `Recover` on the entry stored under `k`
succeeds, read off the cache `c`. -/
def startSucceeds (start : String → Target → Outcome) (c : Cache) (k : String) : Bool :=
  match Cache.Get c k with
  | some t => (start k t).2.isNone
  | none => false

/-- The response `Recover` appends for the entry stored under `k`, as the loop
computes it while `err` is nil. -/
def responseOf (start : String → Target → Outcome) (c : Cache) (k : String) : StatusResponse :=
  match Cache.Get c k with
  | some t => { Status := Status.SUCCESS, Message := (start k t).1 }
  | none => { Status := Status.SUCCESS, Message := "" }

/-- The cache `Recover` leaves: the entries visited whose `Start()` succeeded are gone. -/
def recoveredCache (start : String → Target → Outcome) (c : Cache) (ks : List String) : Cache :=
  c.filter (fun e => !(decide (e.1 ∈ ks) && startSucceeds start c e.1))

/-! ## Concrete targets and outcomes -/

/-- The service `svc-A`. -/
def svcA : Target := { kind := Kind.service, JobName := "job", Name := "svc-A" }

/-- The service `svc-B`. -/
def svcB : Target := { kind := Kind.service, JobName := "job", Name := "svc-B" }

/-- The service `simple` of the end-to-end test, as `stopService` stores it. -/
def simpleSvc : Target := { kind := Kind.service, JobName := "simple", Name := "simple" }

/-- A second stop request for `simple` under another job label. -/
def simpleSvcNew : Target := { kind := Kind.service, JobName := "other", Name := "simple" }

/-- A container `simple`. -/
def simpleDocker : Target := { kind := Kind.docker, JobName := "other", Name := "simple" }

/-- Every `Start()` succeeds. -/
def startOk : String → Target → Outcome :=
  fun _ t => ("Bot host started service " ++ t.Name, none)

/-- The `Start()` of `svc-A` fails, every other one succeeds. -/
def startFailA : String → Target → Outcome :=
  fun k t =>
    if k = "svc-A" then ("Could not start service svc-A", some (GoError.leaf "exit status 1"))
    else ("Bot host started service " ++ t.Name, none)

/-- A successful `Start()` or `Stop()` on any target. -/
def capOk : Target → Outcome := fun t => ("Bot host handled " ++ t.Name, none)

/-- A failing `Start()` or `Stop()` on any target. -/
def capFail : Target → Outcome :=
  fun t => ("Could not handle " ++ t.Name, some (GoError.leaf "exit status 1"))

/-! ## Sequences of calls -/

/-- A call of the RPC surface together with what the environment decided for it:
for a Start or Stop the request and the outcome of `target.Start()` or
`target.Stop()`; for Recover the order in which the keys of the snapshot are
visited and the outcome of `Start()` for each entry. -/
inductive Call where
  | serviceStart (req : Request) (out : Outcome)
  | serviceStop (req : Request) (out : Outcome)
  | dockerStart (req : Request) (out : Outcome)
  | dockerStop (req : Request) (out : Outcome)
  | recover (order : List String) (start : String → Target → Outcome)

/-- The tracker after a call, or `none` when the call panics. -/
def Call.apply (c : Cache) : Call → Option Cache
  | .serviceStart req out => some (ServiceManager.Start (fun _ => out) c req).2
  | .serviceStop req out => some (ServiceManager.Stop (fun _ => out) c req).2
  | .dockerStart req out => some (DockerManager.Start (fun _ => out) c req).2
  | .dockerStop req out => some (DockerManager.Stop (fun _ => out) c req).2
  | .recover order start => (StrategyManager.Recover start c order).map (fun r => r.2)

/-- A Recover visits the keys in an iteration order of the tracker it is called on;
nothing is asked of a Start or a Stop. -/
def Call.Admissible (c : Cache) : Call → Prop
  | .recover order _ => IterationOrder c order
  | _ => True

instance (c : Cache) (call : Call) : Decidable (Call.Admissible c call) := by
  cases call <;> unfold Call.Admissible <;> infer_instance

/-- The tracker after a sequence of calls made one after the other. -/
def runCalls : Cache → List Call → Option Cache
  | c, [] => some c
  | c, call :: rest =>
    match Call.apply c call with
    | none => none
    | some c1 => runCalls c1 rest

/-- Every call of the sequence is admissible on the tracker it is made on. -/
def AdmissibleRun : Cache → List Call → Prop
  | _, [] => True
  | c, call :: rest =>
    Call.Admissible c call ∧
      match Call.apply c call with
      | none => True
      | some c1 => AdmissibleRun c1 rest

/-- The lifecycle operations that can succeed on a name. -/
inductive LifecycleOp where
  | Stop
  | Start
  | Recover
  deriving DecidableEq, Repr

/-- The successful lifecycle operation on the name `N` that a call made on the
tracker `c` amounts to, if any: a Stop of `N` whose `target.Stop()` succeeded, a
Start of `N` whose `target.Start()` succeeded, or a Recover that visited `N` and
whose `Start()` on the entry of `N` succeeded. -/
def Call.successOn (N : String) (c : Cache) : Call → Option LifecycleOp
  | .serviceStart req out =>
    if req.Name = N ∧ out.2 = none then some LifecycleOp.Start else none
  | .serviceStop req out =>
    if req.Name = N ∧ out.2 = none then some LifecycleOp.Stop else none
  | .dockerStart req out =>
    if req.Name = N ∧ out.2 = none then some LifecycleOp.Start else none
  | .dockerStop req out =>
    if req.Name = N ∧ out.2 = none then some LifecycleOp.Stop else none
  | .recover order start =>
    if N ∈ order ∧ startSucceeds start c N = true then some LifecycleOp.Recover else none

/-- The most recent successful lifecycle operation on `N` in a sequence of calls
made from the tracker `c`; `last` is the most recent one before the sequence. -/
def lastSuccessfulOp (N : String) : Cache → List Call → Option LifecycleOp → Option LifecycleOp
  | _, [], last => last
  | c, call :: rest, last =>
    match Call.apply c call with
    | none => last
    | some c1 =>
      lastSuccessfulOp N c1 rest
        (match Call.successOn N c call with
         | some op => some op
         | none => last)

/-- Two stops, then a Recover in which the `Start()` of `svc-A` fails. -/
def partialCalls : List Call :=
  [ Call.serviceStop { JobName := "job", Name := "svc-A" } ("Bot host stopped service svc-A", none),
    Call.dockerStop { JobName := "job", Name := "svc-B" } ("Bot host stopped container svc-B", none),
    Call.recover ["svc-B", "svc-A"] startFailA ]

/-! ## Lemmas on the cache -/

theorem Cache.Get_filter_key (p : String → Bool) (c : Cache) (n : String) :
    Cache.Get (c.filter (fun e => p e.1)) n = if p n = true then Cache.Get c n else none := by
  induction c with
  | nil => simp [Cache.Get]
  | cons e rest ih =>
    obtain ⟨k, t⟩ := e
    by_cases hk : k = n
    · subst hk
      by_cases hp : p k = true
      · simp [List.filter, hp, Cache.Get]
      · simp only [Bool.not_eq_true] at hp
        simp [List.filter, hp, Cache.Get, ih]
    · by_cases hp : p k = true
      · simp [List.filter, hp, Cache.Get, hk, ih]
      · simp only [Bool.not_eq_true] at hp
        simp [List.filter, hp, Cache.Get, hk, ih]

theorem Cache.Get_Delete_self (c : Cache) (k : String) :
    Cache.Get (Cache.Delete c k) k = none := by
  have h := Cache.Get_filter_key (fun x => decide (x ≠ k)) c k
  simpa [Cache.Delete] using h

theorem Cache.Get_Delete_ne (c : Cache) {k n : String} (h : n ≠ k) :
    Cache.Get (Cache.Delete c k) n = Cache.Get c n := by
  have h1 := Cache.Get_filter_key (fun x => decide (x ≠ k)) c n
  simpa [Cache.Delete, h] using h1

theorem Cache.Get_eq_none_iff (c : Cache) (k : String) :
    Cache.Get c k = none ↔ k ∉ Cache.keys c := by
  induction c with
  | nil => simp [Cache.Get, Cache.keys]
  | cons e rest ih =>
    obtain ⟨k', t⟩ := e
    by_cases hk : k' = k
    · simp [Cache.Get, Cache.keys, hk]
    · have hk2 : ¬ k = k' := fun h => hk h.symm
      simpa [Cache.Get, Cache.keys, hk, hk2] using ih

theorem Cache.Get_isSome_iff (c : Cache) (k : String) :
    (Cache.Get c k).isSome = true ↔ k ∈ Cache.keys c := by
  have h := Cache.Get_eq_none_iff c k
  cases hg : Cache.Get c k with
  | none => simpa [hg] using h
  | some t =>
    rw [hg] at h
    simp only [Option.isSome_some, true_iff]
    by_contra hn
    exact absurd (h.mpr hn) (by simp)

theorem Cache.mem_of_Get {c : Cache} {k : String} {t : Target} (h : Cache.Get c k = some t) :
    (k, t) ∈ c := by
  induction c with
  | nil => simp [Cache.Get] at h
  | cons e rest ih =>
    obtain ⟨k', t'⟩ := e
    by_cases hk : k' = k
    · simp only [Cache.Get, hk, if_true, Option.some.injEq] at h
      simp [hk, h]
    · simp only [Cache.Get, hk, if_false] at h
      exact List.mem_cons_of_mem _ (ih h)

theorem Cache.Get_of_mem {c : Cache} (hc : Cache.WF c) {k : String} {t : Target}
    (h : (k, t) ∈ c) : Cache.Get c k = some t := by
  induction c with
  | nil => simp at h
  | cons e rest ih =>
    obtain ⟨k', t'⟩ := e
    simp only [Cache.WF, Cache.keys, List.map_cons, List.nodup_cons] at hc
    rcases List.mem_cons.mp h with h1 | h1
    · simp only [Prod.mk.injEq] at h1
      simp [Cache.Get, h1.1, h1.2]
    · have hne : k' ≠ k := by
        intro hk
        apply hc.1
        rw [hk]
        exact List.mem_map_of_mem Prod.fst h1
      simp only [Cache.Get, hne, if_false]
      exact ih hc.2 h1

theorem Cache.Get_append (c d : Cache) (k : String) :
    Cache.Get (c ++ d) k = (Cache.Get c k).orElse (fun _ => Cache.Get d k) := by
  induction c with
  | nil => simp [Cache.Get]
  | cons e rest ih =>
    obtain ⟨k', t⟩ := e
    by_cases hk : k' = k
    · simp [Cache.Get, hk]
    · simp [Cache.Get, hk, ih]

theorem Cache.WF_Delete {c : Cache} (hc : Cache.WF c) (k : String) :
    Cache.WF (Cache.Delete c k) := by
  unfold Cache.WF Cache.keys Cache.Delete
  exact (List.Nodup.sublist (List.Sublist.map Prod.fst (List.filter_sublist c)) hc)

theorem Cache.WF_Add {c : Cache} (hc : Cache.WF c) (k : String) (x : Target) :
    Cache.WF (Cache.Add c k x).2 := by
  unfold Cache.Add
  cases hg : Cache.Get c k with
  | some t => simpa using hc
  | none =>
    have hk : k ∉ Cache.keys c := (Cache.Get_eq_none_iff c k).mp hg
    simp only [Cache.WF, Cache.keys, List.map_append, List.map_cons, List.map_nil]
    unfold Cache.WF Cache.keys at hc
    unfold Cache.keys at hk
    rw [List.nodup_append]
    refine ⟨hc, List.nodup_singleton _, ?_⟩
    intro a ha hb
    simp only [List.mem_singleton] at hb
    exact hk (hb ▸ ha)

/-! ## Lemmas on the loop of `Recover` -/

theorem recoverStep_nil_err (start : String → Target → Outcome) (c : Cache)
    (rs : List StatusResponse) (k : String) (t : Target) (h : Cache.Get c k = some t) :
    recoverStep start { cache := c, err := none, responses := rs } k =
      some { cache := if (start k t).2.isNone = true then Cache.Delete c k else c,
             err := none,
             responses := rs ++ [{ Status := Status.SUCCESS, Message := (start k t).1 }] } := by
  unfold recoverStep
  simp only [h]
  cases hs : (start k t).2 with
  | none => simp [prepareResponse, respSuccess]
  | some e => simp [errors.Wrap, prepareResponse, respSuccess]

theorem startSucceeds_Delete_ne (start : String → Target → Outcome) (c : Cache) {k n : String}
    (h : n ≠ k) : startSucceeds start (Cache.Delete c k) n = startSucceeds start c n := by
  unfold startSucceeds
  rw [Cache.Get_Delete_ne c h]

theorem responseOf_Delete_ne (start : String → Target → Outcome) (c : Cache) {k n : String}
    (h : n ≠ k) : responseOf start (Cache.Delete c k) n = responseOf start c n := by
  unfold responseOf
  rw [Cache.Get_Delete_ne c h]

theorem recoverLoop_spec (start : String → Target → Outcome) :
    ∀ (ks : List String) (c : Cache) (rs : List StatusResponse),
      ks.Nodup → (∀ k ∈ ks, k ∈ Cache.keys c) →
      recoverLoop start ks { cache := c, err := none, responses := rs } =
        some { cache := recoveredCache start c ks, err := none,
               responses := rs ++ ks.map (responseOf start c) } := by
  intro ks
  induction ks with
  | nil =>
    intro c rs _ _
    simp [recoverLoop, recoveredCache]
  | cons k ks ih =>
    intro c rs hnd hmem
    have hk : k ∉ ks := (List.nodup_cons.mp hnd).1
    have hnd2 : ks.Nodup := (List.nodup_cons.mp hnd).2
    have hkc : k ∈ Cache.keys c := hmem k (List.mem_cons_self _ _)
    obtain ⟨t, ht⟩ := Option.isSome_iff_exists.mp ((Cache.Get_isSome_iff c k).mpr hkc)
    have hresp : responseOf start c k = { Status := Status.SUCCESS, Message := (start k t).1 } := by
      simp [responseOf, ht]
    simp only [recoverLoop, recoverStep_nil_err start c rs k t ht]
    by_cases hs : (start k t).2.isNone = true
    · -- the entry is started and deleted
      have hsucc : startSucceeds start c k = true := by simp [startSucceeds, ht, hs]
      have hmem2 : ∀ n ∈ ks, n ∈ Cache.keys (Cache.Delete c k) := by
        intro n hn
        have hne : n ≠ k := fun h => hk (h ▸ hn)
        have h1 := (Cache.Get_isSome_iff c n).mpr (hmem n (List.mem_cons_of_mem _ hn))
        rw [← Cache.Get_Delete_ne c hne] at h1
        exact (Cache.Get_isSome_iff _ n).mp h1
      rw [if_pos hs, ih (Cache.Delete c k) _ hnd2 hmem2]
      have hmap : ks.map (responseOf start (Cache.Delete c k)) = ks.map (responseOf start c) := by
        apply List.map_congr_left
        intro n hn
        exact responseOf_Delete_ne start c (fun h => hk (h ▸ hn))
      have hcache : recoveredCache start (Cache.Delete c k) ks = recoveredCache start c (k :: ks) := by
        unfold recoveredCache Cache.Delete
        rw [List.filter_filter]
        apply List.filter_congr
        intro e _
        by_cases hek : e.1 = k
        · simp [hek, hsucc]
        · have h2 := startSucceeds_Delete_ne start c hek
          simp only [Cache.Delete, ne_eq, decide_not] at h2
          simp [hek, h2]
      rw [hmap, hcache]
      simp [hresp, List.append_assoc]
    · -- the entry stays
      have hfail : startSucceeds start c k = false := by
        simp only [Bool.not_eq_true] at hs
        simp [startSucceeds, ht, hs]
      have hmem2 : ∀ n ∈ ks, n ∈ Cache.keys c := fun n hn => hmem n (List.mem_cons_of_mem _ hn)
      rw [if_neg hs, ih c _ hnd2 hmem2]
      have hcache : recoveredCache start c ks = recoveredCache start c (k :: ks) := by
        unfold recoveredCache
        apply List.filter_congr
        intro e _
        by_cases hek : e.1 = k
        · simp [hek, hfail]
        · simp [hek]
      rw [hcache]
      simp [hresp, List.append_assoc]

theorem IterationOrder.nodup {c : Cache} {order : List String} (hc : Cache.WF c)
    (ho : IterationOrder c order) : order.Nodup :=
  (List.Perm.nodup_iff ho).mpr hc

theorem IterationOrder.mem_iff {c : Cache} {order : List String}
    (ho : IterationOrder c order) (k : String) : k ∈ order ↔ k ∈ Cache.keys c :=
  List.Perm.mem_iff ho

/-- On a well-formed cache visited in an iteration order, `Recover` returns: every
response is SUCCESS with the message of the entry, the error is nil, and the
entries whose `Start()` succeeded are deleted. -/
theorem Recover_spec (start : String → Target → Outcome) (c : Cache) (order : List String)
    (hc : Cache.WF c) (ho : IterationOrder c order) :
    StrategyManager.Recover start c order =
      some (({ Response := order.map (responseOf start c) }, none),
            recoveredCache start c order) := by
  unfold StrategyManager.Recover
  rw [recoverLoop_spec start order c [] (IterationOrder.nodup hc ho)
    (fun k hk => (IterationOrder.mem_iff ho k).mp hk)]
  simp

theorem Get_recoveredCache (start : String → Target → Outcome) (c : Cache) (ks : List String)
    (n : String) :
    Cache.Get (recoveredCache start c ks) n =
      if n ∈ ks ∧ startSucceeds start c n = true then none else Cache.Get c n := by
  have h := Cache.Get_filter_key (fun x => !(decide (x ∈ ks) && startSucceeds start c x)) c n
  unfold recoveredCache
  rw [h]
  by_cases h1 : n ∈ ks <;> by_cases h2 : startSucceeds start c n = true <;> simp [h1, h2]

/-! ## Recover: the aggregated error and the statuses -/

/-- C1 (evaluation at the failing input): with the single tracked target `svc-A`
whose `Start()` fails with a non-nil error, `Recover` returns a nil aggregated
error, because `errors.Wrap` of the nil `err` is nil. -/
theorem C1_recover_failed_start_nil_error :
    (startFailA "svc-A" svcA).2 ≠ none ∧
    StrategyManager.Recover startFailA [("svc-A", svcA)] ["svc-A"] =
      some (({ Response := [{ Status := Status.SUCCESS,
                              Message := "Could not start service svc-A" }] }, none),
            [("svc-A", svcA)]) := by
  constructor
  · decide
  · rfl

/-- C2 (evaluation at the failing input): with `svc-A` and `svc-B` tracked, the
`Start()` of `svc-A` failing and that of `svc-B` succeeding, the outcome that
`Recover` returns for `svc-A` carries its message with the status SUCCESS, in
either iteration order. -/
theorem C2_recover_failed_start_status_success :
    (startFailA "svc-A" svcA).2 ≠ none ∧
    (StrategyManager.Recover startFailA [("svc-A", svcA), ("svc-B", svcB)]
        ["svc-A", "svc-B"]).map (fun r => r.1.1.Response) =
      some [{ Status := Status.SUCCESS, Message := "Could not start service svc-A" },
            { Status := Status.SUCCESS, Message := "Bot host started service svc-B" }] ∧
    (StrategyManager.Recover startFailA [("svc-A", svcA), ("svc-B", svcB)]
        ["svc-B", "svc-A"]).map (fun r => r.1.1.Response) =
      some [{ Status := Status.SUCCESS, Message := "Bot host started service svc-B" },
            { Status := Status.SUCCESS, Message := "Could not start service svc-A" }] := by
  refine ⟨by decide, ?_, ?_⟩
  · rfl
  · rfl

/-- C3: on a tracker with n entries visited in any iteration order, `Recover`
returns, and it returns exactly n outcomes, the i-th one carrying the message
that `Start()` returned for the i-th visited entry, with status SUCCESS
whenever that `Start()` succeeded. -/
theorem C3_recover_outcomes (start : String → Target → Outcome) (c : Cache)
    (order : List String) (hc : Cache.WF c) (ho : IterationOrder c order) :
    ∃ resp err c',
      StrategyManager.Recover start c order = some ((resp, err), c') ∧
      resp.Response.length = Cache.ItemCount c ∧
      order.length = Cache.ItemCount c ∧
      ∀ (i : Nat) (k : String), order[i]? = some k →
        ∃ (t : Target) (r : StatusResponse), Cache.Get c k = some t ∧ resp.Response[i]? = some r ∧
          r.Message = (start k t).1 ∧
          ((start k t).2 = none → r.Status = Status.SUCCESS) := by
  refine ⟨_, _, _, Recover_spec start c order hc ho, ?_, ?_, ?_⟩
  · simpa [Cache.ItemCount, Cache.Items] using List.Perm.length_eq ho
  · simpa [Cache.ItemCount, Cache.Items] using List.Perm.length_eq ho
  · intro i k hik
    have hk : k ∈ order := List.getElem?_mem hik
    have hkc : k ∈ Cache.keys c := (IterationOrder.mem_iff ho k).mp hk
    obtain ⟨t, ht⟩ := Option.isSome_iff_exists.mp ((Cache.Get_isSome_iff c k).mpr hkc)
    refine ⟨t, responseOf start c k, ht, ?_, ?_, ?_⟩
    · simp [List.getElem?_map, hik]
    · simp [responseOf, ht]
    · intro _
      simp [responseOf, ht]

/-- Witness of C3: the service `simple` is tracked and its `Start()` succeeds;
`Recover` returns the single outcome SUCCESS with the message of `Start()`, a
nil error, and an empty tracker. -/
theorem C3_recover_outcomes_witness :
    Cache.WF [("simple", simpleSvc)] ∧
    IterationOrder [("simple", simpleSvc)] ["simple"] ∧
    StrategyManager.Recover startOk [("simple", simpleSvc)] ["simple"] =
      some (({ Response := [{ Status := Status.SUCCESS,
                              Message := "Bot host started service simple" }] }, none), []) ∧
    ∃ resp err c',
      StrategyManager.Recover startOk [("simple", simpleSvc)] ["simple"] =
        some ((resp, err), c') ∧
      resp.Response.length = Cache.ItemCount [("simple", simpleSvc)] ∧
      ["simple"].length = Cache.ItemCount [("simple", simpleSvc)] ∧
      ∀ (i : Nat) (k : String), ["simple"][i]? = some k →
        ∃ (t : Target) (r : StatusResponse), Cache.Get [("simple", simpleSvc)] k = some t ∧
          resp.Response[i]? = some r ∧
          r.Message = (startOk k t).1 ∧
          ((startOk k t).2 = none → r.Status = Status.SUCCESS) :=
  ⟨by decide, by decide, by rfl,
    C3_recover_outcomes startOk [("simple", simpleSvc)] ["simple"] (by decide) (by decide)⟩

/-! ## Recover: the tracker afterwards -/

theorem startSucceeds_eq_false_iff (start : String → Target → Outcome) (c : Cache) (n : String)
    (t : Target) (h : Cache.Get c n = some t) :
    startSucceeds start c n = false ↔ (start n t).2 ≠ none := by
  simp only [startSucceeds, h]
  cases hs : (start n t).2 <;> simp

/-- C4: after `Recover`, a name is tracked exactly when it was tracked before and
the `Start()` of its target failed; a retained entry holds the same target as
before; and when every `Start()` succeeds, the tracker is empty. -/
theorem C4_recover_tracker (start : String → Target → Outcome) (c : Cache)
    (order : List String) (hc : Cache.WF c) (ho : IterationOrder c order) :
    ∃ resp err c',
      StrategyManager.Recover start c order = some ((resp, err), c') ∧
      (∀ n : String, (Cache.Get c' n).isSome = true ↔
        ∃ t : Target, Cache.Get c n = some t ∧ (start n t).2 ≠ none) ∧
      (∀ (n : String) (t : Target), Cache.Get c' n = some t → Cache.Get c n = some t) ∧
      ((∀ (n : String) (t : Target), Cache.Get c n = some t → (start n t).2 = none) →
        c' = []) := by
  refine ⟨_, _, _, Recover_spec start c order hc ho, ?_, ?_, ?_⟩
  · intro n
    rw [Get_recoveredCache]
    constructor
    · intro h
      by_cases hcond : n ∈ order ∧ startSucceeds start c n = true
      · simp [hcond] at h
      · rw [if_neg hcond] at h
        obtain ⟨t, ht⟩ := Option.isSome_iff_exists.mp h
        refine ⟨t, ht, ?_⟩
        have hn : n ∈ order :=
          (IterationOrder.mem_iff ho n).mpr ((Cache.Get_isSome_iff c n).mp h)
        have hf : startSucceeds start c n = false := by
          cases hb : startSucceeds start c n with
          | false => rfl
          | true => exact absurd ⟨hn, hb⟩ hcond
        exact (startSucceeds_eq_false_iff start c n t ht).mp hf
    · rintro ⟨t, ht, hfail⟩
      have hf := (startSucceeds_eq_false_iff start c n t ht).mpr hfail
      simp [hf, ht]
  · intro n t h
    rw [Get_recoveredCache] at h
    by_cases hcond : n ∈ order ∧ startSucceeds start c n = true
    · simp [hcond] at h
    · rw [if_neg hcond] at h
      exact h
  · intro hall
    unfold recoveredCache
    rw [List.filter_eq_nil_iff]
    intro e he
    have hg : Cache.Get c e.1 = some e.2 := Cache.Get_of_mem hc he
    have hn : e.1 ∈ order :=
      (IterationOrder.mem_iff ho e.1).mpr (List.mem_map_of_mem Prod.fst he)
    have hs : startSucceeds start c e.1 = true := by
      simp [startSucceeds, hg, hall e.1 e.2 hg]
    simp [hn, hs]

/-- Witness of C4: `svc-A` and `svc-B` are tracked, the `Start()` of `svc-A`
fails and that of `svc-B` succeeds; afterwards only `svc-A` is tracked. -/
theorem C4_recover_tracker_witness :
    Cache.WF [("svc-A", svcA), ("svc-B", svcB)] ∧
    IterationOrder [("svc-A", svcA), ("svc-B", svcB)] ["svc-B", "svc-A"] ∧
    (StrategyManager.Recover startFailA [("svc-A", svcA), ("svc-B", svcB)]
        ["svc-B", "svc-A"]).map (fun r => r.2) = some [("svc-A", svcA)] ∧
    ∃ resp err c',
      StrategyManager.Recover startFailA [("svc-A", svcA), ("svc-B", svcB)]
        ["svc-B", "svc-A"] = some ((resp, err), c') ∧
      (∀ n : String, (Cache.Get c' n).isSome = true ↔
        ∃ t : Target, Cache.Get [("svc-A", svcA), ("svc-B", svcB)] n = some t ∧
          (startFailA n t).2 ≠ none) ∧
      (∀ (n : String) (t : Target), Cache.Get c' n = some t →
        Cache.Get [("svc-A", svcA), ("svc-B", svcB)] n = some t) ∧
      ((∀ (n : String) (t : Target),
          Cache.Get [("svc-A", svcA), ("svc-B", svcB)] n = some t → (startFailA n t).2 = none) →
        c' = []) :=
  ⟨by decide, by decide, by rfl,
    C4_recover_tracker startFailA [("svc-A", svcA), ("svc-B", svcB)] ["svc-B", "svc-A"]
      (by decide) (by decide)⟩

/-- C5: on an empty tracker, `Recover` returns an empty sequence of outcomes and a
nil aggregated error, and the tracker stays empty. -/
theorem C5_recover_empty (start : String → Target → Outcome) (order : List String)
    (ho : IterationOrder [] order) :
    StrategyManager.Recover start [] order = some (({ Response := [] }, none), []) := by
  have h : order = [] := by
    unfold IterationOrder Cache.Items at ho
    simpa using ho
  subst h
  rfl

/-- Witness of C5: the only iteration order of the empty tracker is the empty one. -/
theorem C5_recover_empty_witness :
    IterationOrder [] [] ∧
    StrategyManager.Recover startFailA [] [] = some (({ Response := [] }, none), []) :=
  ⟨by decide, C5_recover_empty startFailA [] (by decide)⟩

/-! ## Start and Stop: the tracker afterwards -/

theorem startTarget_success (c : Cache) (name : String) (started : Outcome)
    (h : started.2 = none) : (startTarget started c name).2 = Cache.Delete c name := by
  simp [startTarget, h]

theorem startTarget_failure (c : Cache) (name : String) (started : Outcome)
    (h : started.2 ≠ none) : (startTarget started c name).2 = c := by
  unfold startTarget
  cases hs : started.2 with
  | none => exact absurd hs h
  | some e => rfl

theorem stopTarget_success (c : Cache) (target : Target) (name : String) (stopped : Outcome)
    (h : stopped.2 = none) :
    (stopTarget target stopped c name).2 = (Cache.Add c name target).2 := by
  simp [stopTarget, h]

theorem stopTarget_failure (c : Cache) (target : Target) (name : String) (stopped : Outcome)
    (h : stopped.2 ≠ none) : (stopTarget target stopped c name).2 = c := by
  unfold stopTarget
  cases hs : stopped.2 with
  | none => exact absurd hs h
  | some e => rfl

theorem Cache.Add_absent (c : Cache) (k : String) (x : Target) (h : Cache.Get c k = none) :
    Cache.Add c k x = (none, c ++ [(k, x)]) := by
  simp [Cache.Add, h]

theorem Cache.Add_present (c : Cache) (k : String) (x old : Target)
    (h : Cache.Get c k = some old) :
    Cache.Add c k x = (some (GoError.leaf ("Item " ++ k ++ " already exists")), c) := by
  simp [Cache.Add, h]

theorem Cache.Get_Add_self (c : Cache) (k : String) (x : Target) :
    Cache.Get (Cache.Add c k x).2 k = some ((Cache.Get c k).getD x) := by
  cases h : Cache.Get c k with
  | none => simp [Cache.Add_absent c k x h, Cache.Get_append, h, Cache.Get]
  | some old => simp [Cache.Add_present c k x old h, h]

/-- C6: after a Start whose `target.Start()` succeeds, the tracker holds no entry
for the name, whatever it held before; for `startTarget` and for the handlers
`ServiceManager.Start` and `DockerManager.Start`. -/
theorem C6_start_success_untracks (c : Cache) :
    (∀ (name : String) (started : Outcome), started.2 = none →
      Cache.Get (startTarget started c name).2 name = none ∧
      name ∉ Cache.keys (startTarget started c name).2) ∧
    (∀ (start : Target → Outcome) (req : Request),
      (start { kind := Kind.service, JobName := req.JobName, Name := req.Name }).2 = none →
      Cache.Get (ServiceManager.Start start c req).2 req.Name = none) ∧
    (∀ (start : Target → Outcome) (req : Request),
      (start { kind := Kind.docker, JobName := req.JobName, Name := req.Name }).2 = none →
      Cache.Get (DockerManager.Start start c req).2 req.Name = none) := by
  refine ⟨?_, ?_, ?_⟩
  · intro name started h
    rw [startTarget_success c name started h]
    exact ⟨Cache.Get_Delete_self c name,
      (Cache.Get_eq_none_iff _ name).mp (Cache.Get_Delete_self c name)⟩
  · intro start req h
    show Cache.Get (startTarget _ c req.Name).2 req.Name = none
    rw [startTarget_success c req.Name _ h]
    exact Cache.Get_Delete_self c req.Name
  · intro start req h
    show Cache.Get (startTarget _ c req.Name).2 req.Name = none
    rw [startTarget_success c req.Name _ h]
    exact Cache.Get_Delete_self c req.Name

/-- Witness of C6: a successful Start of `simple`, tracked or not. -/
theorem C6_start_success_untracks_witness :
    (Cache.Get (startTarget ("Bot host started service simple", none)
        [("simple", simpleSvc)] "simple").2 "simple" = none ∧
      "simple" ∉ Cache.keys (startTarget ("Bot host started service simple", none)
        [("simple", simpleSvc)] "simple").2) ∧
    Cache.Get (ServiceManager.Start capOk [("simple", simpleSvc)]
      { JobName := "simple", Name := "simple" }).2 "simple" = none ∧
    Cache.Get (DockerManager.Start capOk []
      { JobName := "simple", Name := "simple" }).2 "simple" = none :=
  ⟨(C6_start_success_untracks [("simple", simpleSvc)]).1 "simple"
      ("Bot host started service simple", none) rfl,
    (C6_start_success_untracks [("simple", simpleSvc)]).2.1 capOk
      { JobName := "simple", Name := "simple" } rfl,
    (C6_start_success_untracks []).2.2 capOk { JobName := "simple", Name := "simple" } rfl⟩

/-- C7: a Start whose `target.Start()` fails and a Stop whose `target.Stop()`
fails leave the tracker exactly as it was; for `startTarget`, `stopTarget` and
the four handlers. -/
theorem C7_failed_call_keeps_tracker (c : Cache) :
    (∀ (name : String) (started : Outcome), started.2 ≠ none →
      (startTarget started c name).2 = c) ∧
    (∀ (target : Target) (name : String) (stopped : Outcome), stopped.2 ≠ none →
      (stopTarget target stopped c name).2 = c) ∧
    (∀ (cap : Target → Outcome) (req : Request),
      (cap { kind := Kind.service, JobName := req.JobName, Name := req.Name }).2 ≠ none →
      (ServiceManager.Start cap c req).2 = c ∧ (ServiceManager.Stop cap c req).2 = c) ∧
    (∀ (cap : Target → Outcome) (req : Request),
      (cap { kind := Kind.docker, JobName := req.JobName, Name := req.Name }).2 ≠ none →
      (DockerManager.Start cap c req).2 = c ∧ (DockerManager.Stop cap c req).2 = c) := by
  refine ⟨?_, ?_, ?_, ?_⟩
  · intro name started h
    exact startTarget_failure c name started h
  · intro target name stopped h
    exact stopTarget_failure c target name stopped h
  · intro cap req h
    exact ⟨startTarget_failure c req.Name _ h, stopTarget_failure c _ req.Name _ h⟩
  · intro cap req h
    exact ⟨startTarget_failure c req.Name _ h, stopTarget_failure c _ req.Name _ h⟩

/-- Witness of C7: failing calls on a tracker that holds `svc-A`. -/
theorem C7_failed_call_keeps_tracker_witness :
    (startTarget ("Could not start service svc-A", some (GoError.leaf "exit status 1"))
        [("svc-A", svcA)] "svc-A").2 = [("svc-A", svcA)] ∧
    (stopTarget svcB ("Could not stop service svc-B", some (GoError.leaf "exit status 1"))
        [("svc-A", svcA)] "svc-B").2 = [("svc-A", svcA)] ∧
    ((ServiceManager.Start capFail [("svc-A", svcA)] { JobName := "job", Name := "svc-A" }).2 =
        [("svc-A", svcA)] ∧
      (ServiceManager.Stop capFail [("svc-A", svcA)] { JobName := "job", Name := "svc-A" }).2 =
        [("svc-A", svcA)]) ∧
    ((DockerManager.Start capFail [("svc-A", svcA)] { JobName := "job", Name := "zk" }).2 =
        [("svc-A", svcA)] ∧
      (DockerManager.Stop capFail [("svc-A", svcA)] { JobName := "job", Name := "zk" }).2 =
        [("svc-A", svcA)]) :=
  ⟨(C7_failed_call_keeps_tracker [("svc-A", svcA)]).1 "svc-A"
      ("Could not start service svc-A", some (GoError.leaf "exit status 1")) (by simp),
    (C7_failed_call_keeps_tracker [("svc-A", svcA)]).2.1 svcB "svc-B"
      ("Could not stop service svc-B", some (GoError.leaf "exit status 1")) (by simp),
    (C7_failed_call_keeps_tracker [("svc-A", svcA)]).2.2.1 capFail
      { JobName := "job", Name := "svc-A" } (by simp [capFail]),
    (C7_failed_call_keeps_tracker [("svc-A", svcA)]).2.2.2 capFail
      { JobName := "job", Name := "zk" } (by simp [capFail])⟩

/-- C8: after a Stop of N whose `target.Stop()` succeeds, the tracker holds an
entry for N, and exactly one; a following Start of N whose `target.Start()`
succeeds removes it. -/
theorem C8_stop_then_start (c : Cache) (hc : Cache.WF c) (target : Target) (name : String)
    (stopped started : Outcome) (h1 : stopped.2 = none) (h2 : started.2 = none) :
    (Cache.Get (stopTarget target stopped c name).2 name).isSome = true ∧
    (Cache.keys (stopTarget target stopped c name).2).count name = 1 ∧
    Cache.Get (startTarget started (stopTarget target stopped c name).2 name).2 name = none ∧
    name ∉ Cache.keys (startTarget started (stopTarget target stopped c name).2 name).2 := by
  have hget : (Cache.Get (stopTarget target stopped c name).2 name).isSome = true := by
    rw [stopTarget_success c target name stopped h1, Cache.Get_Add_self]
    rfl
  have hwf : Cache.WF (stopTarget target stopped c name).2 := by
    rw [stopTarget_success c target name stopped h1]
    exact Cache.WF_Add hc name target
  refine ⟨hget, ?_, ?_, ?_⟩
  · exact List.count_eq_one_of_mem hwf ((Cache.Get_isSome_iff _ name).mp hget)
  · rw [startTarget_success _ name started h2]
    exact Cache.Get_Delete_self _ name
  · rw [startTarget_success _ name started h2]
    exact (Cache.Get_eq_none_iff _ name).mp (Cache.Get_Delete_self _ name)

/-- Witness of C8: `simple` is stopped and started again on a tracker holding `svc-A`. -/
theorem C8_stop_then_start_witness :
    Cache.WF [("svc-A", svcA)] ∧
    (stopTarget simpleSvc ("Bot host stopped service simple", none)
      [("svc-A", svcA)] "simple").2 = [("svc-A", svcA), ("simple", simpleSvc)] ∧
    ((Cache.Get (stopTarget simpleSvc ("Bot host stopped service simple", none)
        [("svc-A", svcA)] "simple").2 "simple").isSome = true ∧
      (Cache.keys (stopTarget simpleSvc ("Bot host stopped service simple", none)
        [("svc-A", svcA)] "simple").2).count "simple" = 1 ∧
      Cache.Get (startTarget ("Bot host started service simple", none)
        (stopTarget simpleSvc ("Bot host stopped service simple", none)
          [("svc-A", svcA)] "simple").2 "simple").2 "simple" = none ∧
      "simple" ∉ Cache.keys (startTarget ("Bot host started service simple", none)
        (stopTarget simpleSvc ("Bot host stopped service simple", none)
          [("svc-A", svcA)] "simple").2 "simple").2) :=
  ⟨by decide, by rfl,
    C8_stop_then_start [("svc-A", svcA)] (by decide) simpleSvc "simple"
      ("Bot host stopped service simple", none) ("Bot host started service simple", none)
      rfl rfl⟩

/-! ## Stop on a name that is already tracked -/

/-- C9 (counterexample): `simple` is tracked as a service with job label `simple`;
a Stop of `simple` under the job label `other` succeeds, as a service or as a
container, and the tracker still holds the entry it held before, not the target
just stopped. -/
theorem C9_stop_does_not_overwrite :
    (capOk simpleSvcNew).2 = none ∧
    Cache.Get (ServiceManager.Stop capOk [("simple", simpleSvc)]
      { JobName := "other", Name := "simple" }).2 "simple" = some simpleSvc ∧
    Cache.Get (ServiceManager.Stop capOk [("simple", simpleSvc)]
      { JobName := "other", Name := "simple" }).2 "simple" ≠ some simpleSvcNew ∧
    (capOk simpleDocker).2 = none ∧
    Cache.Get (DockerManager.Stop capOk [("simple", simpleSvc)]
      { JobName := "other", Name := "simple" }).2 "simple" = some simpleSvc ∧
    Cache.Get (DockerManager.Stop capOk [("simple", simpleSvc)]
      { JobName := "other", Name := "simple" }).2 "simple" ≠ some simpleDocker := by
  refine ⟨rfl, by rfl, by decide, rfl, by rfl, by decide⟩

/-- C9 (amended): after a Stop whose `target.Stop()` succeeds, the entry for the
name is the target just stopped when the name was not tracked before the call;
when it was tracked, the whole tracker, and so the entry stored for the name,
is as it was before the call. For `stopTarget` and the handlers
`ServiceManager.Stop` and `DockerManager.Stop`. -/
theorem C9_stop_success_entry (c : Cache) :
    (∀ (target : Target) (name : String) (stopped : Outcome), stopped.2 = none →
      (Cache.Get c name = none →
        Cache.Get (stopTarget target stopped c name).2 name = some target) ∧
      (∀ old : Target, Cache.Get c name = some old →
        (stopTarget target stopped c name).2 = c ∧
        Cache.Get (stopTarget target stopped c name).2 name = some old)) ∧
    (∀ (stop : Target → Outcome) (req : Request),
      (stop { kind := Kind.service, JobName := req.JobName, Name := req.Name }).2 = none →
      (Cache.Get c req.Name = none →
        Cache.Get (ServiceManager.Stop stop c req).2 req.Name =
          some { kind := Kind.service, JobName := req.JobName, Name := req.Name }) ∧
      (∀ old : Target, Cache.Get c req.Name = some old →
        (ServiceManager.Stop stop c req).2 = c ∧
        Cache.Get (ServiceManager.Stop stop c req).2 req.Name = some old)) ∧
    (∀ (stop : Target → Outcome) (req : Request),
      (stop { kind := Kind.docker, JobName := req.JobName, Name := req.Name }).2 = none →
      (Cache.Get c req.Name = none →
        Cache.Get (DockerManager.Stop stop c req).2 req.Name =
          some { kind := Kind.docker, JobName := req.JobName, Name := req.Name }) ∧
      (∀ old : Target, Cache.Get c req.Name = some old →
        (DockerManager.Stop stop c req).2 = c ∧
        Cache.Get (DockerManager.Stop stop c req).2 req.Name = some old)) := by
  have key : ∀ (target : Target) (name : String) (stopped : Outcome), stopped.2 = none →
      (Cache.Get c name = none →
        Cache.Get (stopTarget target stopped c name).2 name = some target) ∧
      (∀ old : Target, Cache.Get c name = some old →
        (stopTarget target stopped c name).2 = c ∧
        Cache.Get (stopTarget target stopped c name).2 name = some old) := by
    intro target name stopped h
    rw [stopTarget_success c target name stopped h]
    constructor
    · intro habs
      rw [Cache.Get_Add_self, habs]
      rfl
    · intro old hold
      rw [Cache.Add_present c name target old hold]
      exact ⟨rfl, hold⟩
  refine ⟨key, ?_, ?_⟩
  · intro stop req h
    exact key _ req.Name _ h
  · intro stop req h
    exact key _ req.Name _ h

/-- Witness of C9 (amended): a Stop of `simple` on a tracker without it stores the
target just stopped; a second Stop under another job label leaves that entry. -/
theorem C9_stop_success_entry_witness :
    Cache.Get (stopTarget simpleSvc ("Bot host stopped service simple", none)
      [] "simple").2 "simple" = some simpleSvc ∧
    ((stopTarget simpleSvcNew ("Bot host stopped service simple", none)
        [("simple", simpleSvc)] "simple").2 = [("simple", simpleSvc)] ∧
      Cache.Get (stopTarget simpleSvcNew ("Bot host stopped service simple", none)
        [("simple", simpleSvc)] "simple").2 "simple" = some simpleSvc) ∧
    Cache.Get (ServiceManager.Stop capOk [("svc-A", svcA)]
      { JobName := "simple", Name := "simple" }).2 "simple" = some simpleSvc ∧
    ((DockerManager.Stop capOk [("simple", simpleSvc)]
        { JobName := "other", Name := "simple" }).2 = [("simple", simpleSvc)] ∧
      Cache.Get (DockerManager.Stop capOk [("simple", simpleSvc)]
        { JobName := "other", Name := "simple" }).2 "simple" = some simpleSvc) :=
  ⟨((C9_stop_success_entry []).1 simpleSvc "simple"
      ("Bot host stopped service simple", none) rfl).1 rfl,
    ((C9_stop_success_entry [("simple", simpleSvc)]).1 simpleSvcNew "simple"
      ("Bot host stopped service simple", none) rfl).2 simpleSvc (by rfl),
    ((C9_stop_success_entry [("svc-A", svcA)]).2.1 capOk
      { JobName := "simple", Name := "simple" } rfl).1 (by rfl),
    ((C9_stop_success_entry [("simple", simpleSvc)]).2.2 capOk
      { JobName := "other", Name := "simple" } rfl).2 simpleSvc (by rfl)⟩

/-! ## The status envelope -/

/-- C10: Start and Stop return SUCCESS with the message and a nil error when the
capability returned a nil error, and FAIL with the message and that same error
otherwise, whatever the tracker holds; a Stop that succeeds on a name already
tracked, where `cache.Add` returns an error, still returns SUCCESS and a nil
error. -/
theorem C10_status_envelope (c : Cache) (req : Request) (cap : Target → Outcome) :
    (ServiceManager.Start cap c req).1 =
      (match (cap { kind := Kind.service, JobName := req.JobName, Name := req.Name }).2 with
       | none => ({ Status := Status.SUCCESS,
                    Message := (cap { kind := Kind.service, JobName := req.JobName,
                                      Name := req.Name }).1 }, none)
       | some e => ({ Status := Status.FAIL,
                      Message := (cap { kind := Kind.service, JobName := req.JobName,
                                        Name := req.Name }).1 }, some e)) ∧
    (ServiceManager.Stop cap c req).1 =
      (match (cap { kind := Kind.service, JobName := req.JobName, Name := req.Name }).2 with
       | none => ({ Status := Status.SUCCESS,
                    Message := (cap { kind := Kind.service, JobName := req.JobName,
                                      Name := req.Name }).1 }, none)
       | some e => ({ Status := Status.FAIL,
                      Message := (cap { kind := Kind.service, JobName := req.JobName,
                                        Name := req.Name }).1 }, some e)) ∧
    (DockerManager.Start cap c req).1 =
      (match (cap { kind := Kind.docker, JobName := req.JobName, Name := req.Name }).2 with
       | none => ({ Status := Status.SUCCESS,
                    Message := (cap { kind := Kind.docker, JobName := req.JobName,
                                      Name := req.Name }).1 }, none)
       | some e => ({ Status := Status.FAIL,
                      Message := (cap { kind := Kind.docker, JobName := req.JobName,
                                        Name := req.Name }).1 }, some e)) ∧
    (DockerManager.Stop cap c req).1 =
      (match (cap { kind := Kind.docker, JobName := req.JobName, Name := req.Name }).2 with
       | none => ({ Status := Status.SUCCESS,
                    Message := (cap { kind := Kind.docker, JobName := req.JobName,
                                      Name := req.Name }).1 }, none)
       | some e => ({ Status := Status.FAIL,
                      Message := (cap { kind := Kind.docker, JobName := req.JobName,
                                        Name := req.Name }).1 }, some e)) ∧
    (∀ old : Target, Cache.Get c req.Name = some old →
      (cap { kind := Kind.service, JobName := req.JobName, Name := req.Name }).2 = none →
      (Cache.Add c req.Name
        { kind := Kind.service, JobName := req.JobName, Name := req.Name }).1 ≠ none ∧
      (ServiceManager.Stop cap c req).1 =
        ({ Status := Status.SUCCESS,
           Message := (cap { kind := Kind.service, JobName := req.JobName,
                             Name := req.Name }).1 }, none)) ∧
    (∀ old : Target, Cache.Get c req.Name = some old →
      (cap { kind := Kind.docker, JobName := req.JobName, Name := req.Name }).2 = none →
      (Cache.Add c req.Name
        { kind := Kind.docker, JobName := req.JobName, Name := req.Name }).1 ≠ none ∧
      (DockerManager.Stop cap c req).1 =
        ({ Status := Status.SUCCESS,
           Message := (cap { kind := Kind.docker, JobName := req.JobName,
                             Name := req.Name }).1 }, none)) := by
  have hstart : ∀ (out : Outcome) (name : String),
      (startTarget out c name).1 = out := by
    intro out name
    unfold startTarget
    cases out.2 <;> rfl
  have hstop : ∀ (t : Target) (out : Outcome) (name : String),
      (stopTarget t out c name).1 = out := by
    intro t out name
    unfold stopTarget
    cases out.2 <;> rfl
  have henv : ∀ out : Outcome, prepareResponse out.1 out.2 =
      (match out.2 with
       | none => ({ Status := Status.SUCCESS, Message := out.1 }, none)
       | some e => ({ Status := Status.FAIL, Message := out.1 }, some e)) := by
    intro out
    unfold prepareResponse respSuccess respFail
    cases out.2 <;> rfl
  have hS : (ServiceManager.Start cap c req).1 =
      prepareResponse (cap { kind := Kind.service, JobName := req.JobName, Name := req.Name }).1
        (cap { kind := Kind.service, JobName := req.JobName, Name := req.Name }).2 := by
    show prepareResponse (startTarget _ c req.Name).1.1 (startTarget _ c req.Name).1.2 = _
    rw [hstart]
  have hS2 : (ServiceManager.Stop cap c req).1 =
      prepareResponse (cap { kind := Kind.service, JobName := req.JobName, Name := req.Name }).1
        (cap { kind := Kind.service, JobName := req.JobName, Name := req.Name }).2 := by
    show prepareResponse (stopTarget _ _ c req.Name).1.1 (stopTarget _ _ c req.Name).1.2 = _
    rw [hstop]
  have hD : (DockerManager.Start cap c req).1 =
      prepareResponse (cap { kind := Kind.docker, JobName := req.JobName, Name := req.Name }).1
        (cap { kind := Kind.docker, JobName := req.JobName, Name := req.Name }).2 := by
    show prepareResponse (startTarget _ c req.Name).1.1 (startTarget _ c req.Name).1.2 = _
    rw [hstart]
  have hD2 : (DockerManager.Stop cap c req).1 =
      prepareResponse (cap { kind := Kind.docker, JobName := req.JobName, Name := req.Name }).1
        (cap { kind := Kind.docker, JobName := req.JobName, Name := req.Name }).2 := by
    show prepareResponse (stopTarget _ _ c req.Name).1.1 (stopTarget _ _ c req.Name).1.2 = _
    rw [hstop]
  refine ⟨?_, ?_, ?_, ?_, ?_, ?_⟩
  · rw [hS, henv]
  · rw [hS2, henv]
  · rw [hD, henv]
  · rw [hD2, henv]
  · intro old hold hok
    refine ⟨?_, ?_⟩
    · rw [Cache.Add_present c req.Name _ old hold]
      simp
    · rw [hS2, henv, hok]
  · intro old hold hok
    refine ⟨?_, ?_⟩
    · rw [Cache.Add_present c req.Name _ old hold]
      simp
    · rw [hD2, henv, hok]

/-- Witness of C10: a Stop of `simple` that succeeds while `simple` is tracked. -/
theorem C10_status_envelope_witness :
    Cache.Get [("simple", simpleSvc)] "simple" = some simpleSvc ∧
    (capOk { kind := Kind.service, JobName := "other", Name := "simple" }).2 = none ∧
    (Cache.Add [("simple", simpleSvc)] "simple"
      { kind := Kind.service, JobName := "other", Name := "simple" }).1 ≠ none ∧
    (ServiceManager.Stop capOk [("simple", simpleSvc)]
      { JobName := "other", Name := "simple" }).1 =
        ({ Status := Status.SUCCESS,
           Message := (capOk { kind := Kind.service, JobName := "other",
                               Name := "simple" }).1 }, none) :=
  ⟨by rfl, rfl,
    (C10_status_envelope [("simple", simpleSvc)] { JobName := "other", Name := "simple" }
      capOk).2.2.2.2.1 simpleSvc (by rfl) rfl⟩

/-! ## Sequences of calls: the tracker and the most recent successful operation -/

theorem Cache.Get_Add_ne (c : Cache) (x : Target) {k n : String} (h : n ≠ k) :
    Cache.Get (Cache.Add c k x).2 n = Cache.Get c n := by
  cases hg : Cache.Get c k with
  | none =>
    have hkn : ¬ k = n := fun e => h e.symm
    rw [Cache.Add_absent c k x hg]
    simp only [Cache.Get_append, Cache.Get, hkn, if_false]
    cases Cache.Get c n <;> rfl
  | some old => rw [Cache.Add_present c k x old hg]

theorem Cache.Delete_absent (c : Cache) (k : String) (h : Cache.Get c k = none) :
    Cache.Delete c k = c := by
  have hk : k ∉ Cache.keys c := (Cache.Get_eq_none_iff c k).mp h
  unfold Cache.Delete
  rw [List.filter_eq_self]
  intro e he
  have hne : e.1 ≠ k := by
    intro heq
    apply hk
    rw [← heq]
    exact List.mem_map_of_mem Prod.fst he
  simpa using hne

theorem WF_recoveredCache (start : String → Target → Outcome) {c : Cache} (hc : Cache.WF c)
    (ks : List String) : Cache.WF (recoveredCache start c ks) := by
  unfold Cache.WF Cache.keys recoveredCache
  exact List.Nodup.sublist (List.Sublist.map Prod.fst (List.filter_sublist c)) hc

theorem startTarget_Get (c : Cache) (name : String) (out : Outcome) (N : String) :
    Cache.Get (startTarget out c name).2 N =
      if name = N ∧ out.2 = none then none else Cache.Get c N := by
  by_cases ho : out.2 = none
  · rw [startTarget_success c name out ho]
    by_cases hn : name = N
    · subst hn
      simp [ho, Cache.Get_Delete_self]
    · have hn2 : N ≠ name := fun e => hn e.symm
      simp [hn, Cache.Get_Delete_ne c hn2]
  · rw [startTarget_failure c name out ho]
    simp [ho]

theorem stopTarget_Get_isSome (c : Cache) (target : Target) (name : String) (out : Outcome)
    (N : String) :
    (Cache.Get (stopTarget target out c name).2 N).isSome =
      if name = N ∧ out.2 = none then true else (Cache.Get c N).isSome := by
  by_cases ho : out.2 = none
  · rw [stopTarget_success c target name out ho]
    by_cases hn : name = N
    · subst hn
      simp [ho, Cache.Get_Add_self]
    · have hn2 : N ≠ name := fun e => hn e.symm
      simp [hn, Cache.Get_Add_ne c target hn2]
  · rw [stopTarget_failure c target name out ho]
    simp [ho]

theorem startTarget_WF {c : Cache} (hc : Cache.WF c) (name : String) (out : Outcome) :
    Cache.WF (startTarget out c name).2 := by
  unfold startTarget
  cases out.2 with
  | none => exact Cache.WF_Delete hc name
  | some e => exact hc

theorem stopTarget_WF {c : Cache} (hc : Cache.WF c) (target : Target) (name : String)
    (out : Outcome) : Cache.WF (stopTarget target out c name).2 := by
  unfold stopTarget
  cases out.2 with
  | none => exact Cache.WF_Add hc name target
  | some e => exact hc

/-- An admissible call on a well-formed tracker returns a well-formed tracker, in
which `N` is tracked exactly when the call was a successful Stop of `N`, or was
no successful operation on `N` and `N` was tracked before. -/
theorem Call.apply_spec (N : String) (c : Cache) (hc : Cache.WF c) (call : Call)
    (ha : Call.Admissible c call) :
    ∃ c1, Call.apply c call = some c1 ∧ Cache.WF c1 ∧
      ((Cache.Get c1 N).isSome = true ↔
        match Call.successOn N c call with
        | some op => op = LifecycleOp.Stop
        | none => (Cache.Get c N).isSome = true) := by
  cases call with
  | serviceStart req out =>
    refine ⟨_, rfl, startTarget_WF hc req.Name _, ?_⟩
    show (Cache.Get (startTarget out c req.Name).2 N).isSome = true ↔ _
    rw [startTarget_Get]
    by_cases h : req.Name = N ∧ out.2 = none <;> simp [Call.successOn, h]
  | serviceStop req out =>
    refine ⟨_, rfl, stopTarget_WF hc _ req.Name _, ?_⟩
    show (Cache.Get (stopTarget _ out c req.Name).2 N).isSome = true ↔ _
    rw [stopTarget_Get_isSome]
    by_cases h : req.Name = N ∧ out.2 = none <;> simp [Call.successOn, h]
  | dockerStart req out =>
    refine ⟨_, rfl, startTarget_WF hc req.Name _, ?_⟩
    show (Cache.Get (startTarget out c req.Name).2 N).isSome = true ↔ _
    rw [startTarget_Get]
    by_cases h : req.Name = N ∧ out.2 = none <;> simp [Call.successOn, h]
  | dockerStop req out =>
    refine ⟨_, rfl, stopTarget_WF hc _ req.Name _, ?_⟩
    show (Cache.Get (stopTarget _ out c req.Name).2 N).isSome = true ↔ _
    rw [stopTarget_Get_isSome]
    by_cases h : req.Name = N ∧ out.2 = none <;> simp [Call.successOn, h]
  | recover order start =>
    have hspec := Recover_spec start c order hc ha
    refine ⟨recoveredCache start c order, ?_, WF_recoveredCache start hc order, ?_⟩
    · simp [Call.apply, hspec]
    · rw [Get_recoveredCache]
      by_cases h : N ∈ order ∧ startSucceeds start c N = true <;> simp [Call.successOn, h]

theorem runCalls_spec (N : String) :
    ∀ (calls : List Call) (c : Cache) (last : Option LifecycleOp),
      Cache.WF c → AdmissibleRun c calls →
      ((Cache.Get c N).isSome = true ↔ last = some LifecycleOp.Stop) →
      ∃ c1, runCalls c calls = some c1 ∧ Cache.WF c1 ∧
        ((Cache.Get c1 N).isSome = true ↔
          lastSuccessfulOp N c calls last = some LifecycleOp.Stop) := by
  intro calls
  induction calls with
  | nil =>
    intro c last hc _ hinv
    exact ⟨c, rfl, hc, hinv⟩
  | cons call rest ih =>
    intro c last hc hadm hinv
    obtain ⟨ha, hrest⟩ := hadm
    obtain ⟨c1, hap, hc1, hstep⟩ := Call.apply_spec N c hc call ha
    rw [hap] at hrest
    have hinv1 : (Cache.Get c1 N).isSome = true ↔
        (match Call.successOn N c call with
         | some op => some op
         | none => last) = some LifecycleOp.Stop := by
      rw [hstep]
      cases Call.successOn N c call with
      | none => exact hinv
      | some op => simp
    obtain ⟨c2, hrun, hc2, hfin⟩ := ih c1 _ hc1 hrest hinv1
    refine ⟨c2, ?_, hc2, ?_⟩
    · simp only [runCalls, hap]
      exact hrun
    · simp only [lastSuccessfulOp, hap]
      exact hfin

/-- C11: after every finite sequence of Start, Stop and Recover calls made from the
empty tracker, whatever the capability outcomes and the iteration orders, the
sequence runs to the end, and a name is tracked at the end exactly when the
most recent successful lifecycle operation on it exists and was a Stop. -/
theorem C11_tracked_iff_last_success_is_stop (calls : List Call) (N : String)
    (h : AdmissibleRun [] calls) :
    ∃ c1, runCalls [] calls = some c1 ∧
      ((Cache.Get c1 N).isSome = true ↔
        lastSuccessfulOp N [] calls none = some LifecycleOp.Stop) := by
  have hwf : Cache.WF [] := by simp [Cache.WF, Cache.keys]
  obtain ⟨c1, hrun, _, hfin⟩ := runCalls_spec N calls [] none hwf h (by simp [Cache.Get])
  exact ⟨c1, hrun, hfin⟩

/-- Witness of C11: two stops followed by a Recover in which the `Start()` of
`svc-A` fails; `svc-A` is tracked at the end, its last successful operation
being the Stop. -/
theorem C11_tracked_iff_last_success_is_stop_witness :
    AdmissibleRun [] partialCalls ∧
    runCalls [] partialCalls = some [("svc-A", svcA)] ∧
    lastSuccessfulOp "svc-A" [] partialCalls none = some LifecycleOp.Stop ∧
    ∃ c1, runCalls [] partialCalls = some c1 ∧
      ((Cache.Get c1 "svc-A").isSome = true ↔
        lastSuccessfulOp "svc-A" [] partialCalls none = some LifecycleOp.Stop) :=
  ⟨⟨trivial, trivial, by decide, trivial⟩, by rfl, by rfl,
    C11_tracked_iff_last_success_is_stop partialCalls "svc-A"
      ⟨trivial, trivial, by decide, trivial⟩⟩

/-! ## Start twice on an untracked name; the frame of Start and Stop -/

/-- C12: when the tracker holds no entry for `N`, two Starts of `N` in a row,
whatever their outcomes, leave the tracker equal to the initial one after the
first call and after the second; for `startTarget` and both Start handlers. -/
theorem C12_start_twice_untracked (c : Cache) (N : String) (h : Cache.Get c N = none) :
    (∀ o1 o2 : Outcome,
      (startTarget o1 c N).2 = c ∧ (startTarget o2 (startTarget o1 c N).2 N).2 = c) ∧
    (∀ (cap1 cap2 : Target → Outcome) (req : Request), req.Name = N →
      (ServiceManager.Start cap1 c req).2 = c ∧
      (ServiceManager.Start cap2 (ServiceManager.Start cap1 c req).2 req).2 = c) ∧
    (∀ (cap1 cap2 : Target → Outcome) (req : Request), req.Name = N →
      (DockerManager.Start cap1 c req).2 = c ∧
      (DockerManager.Start cap2 (DockerManager.Start cap1 c req).2 req).2 = c) := by
  have once : ∀ o : Outcome, (startTarget o c N).2 = c := by
    intro o
    by_cases ho : o.2 = none
    · rw [startTarget_success c N o ho]
      exact Cache.Delete_absent c N h
    · exact startTarget_failure c N o ho
  have twice : ∀ o1 o2 : Outcome,
      (startTarget o1 c N).2 = c ∧ (startTarget o2 (startTarget o1 c N).2 N).2 = c := by
    intro o1 o2
    refine ⟨once o1, ?_⟩
    rw [once o1]
    exact once o2
  refine ⟨twice, ?_, ?_⟩
  · intro cap1 cap2 req hreq
    subst hreq
    exact twice _ _
  · intro cap1 cap2 req hreq
    subst hreq
    exact twice _ _

/-- Witness of C12: `simple` is started twice, first with success and then with
failure, on a tracker that holds only `svc-A`. -/
theorem C12_start_twice_untracked_witness :
    Cache.Get [("svc-A", svcA)] "simple" = none ∧
    ((startTarget ("Bot host started service simple", none) [("svc-A", svcA)] "simple").2 =
        [("svc-A", svcA)] ∧
      (startTarget ("Could not start service simple", some (GoError.leaf "exit status 1"))
        (startTarget ("Bot host started service simple", none)
          [("svc-A", svcA)] "simple").2 "simple").2 = [("svc-A", svcA)]) ∧
    ((ServiceManager.Start capOk [("svc-A", svcA)] { JobName := "", Name := "simple" }).2 =
        [("svc-A", svcA)] ∧
      (ServiceManager.Start capFail
        (ServiceManager.Start capOk [("svc-A", svcA)] { JobName := "", Name := "simple" }).2
        { JobName := "", Name := "simple" }).2 = [("svc-A", svcA)]) :=
  ⟨by rfl,
    (C12_start_twice_untracked [("svc-A", svcA)] "simple" (by rfl)).1
      ("Bot host started service simple", none)
      ("Could not start service simple", some (GoError.leaf "exit status 1")),
    (C12_start_twice_untracked [("svc-A", svcA)] "simple" (by rfl)).2.1 capOk capFail
      { JobName := "", Name := "simple" } rfl⟩

theorem stopTarget_Get_ne (c : Cache) (target : Target) (out : Outcome) {N M : String}
    (h : M ≠ N) : Cache.Get (stopTarget target out c N).2 M = Cache.Get c M := by
  by_cases ho : out.2 = none
  · rw [stopTarget_success c target N out ho]
    exact Cache.Get_Add_ne c target h
  · rw [stopTarget_failure c target N out ho]

theorem startTarget_Get_ne (c : Cache) (out : Outcome) {N M : String}
    (h : M ≠ N) : Cache.Get (startTarget out c N).2 M = Cache.Get c M := by
  have hne : ¬ N = M := fun e => h e.symm
  rw [startTarget_Get]
  simp [hne]

/-- C14: a Start or a Stop on `N`, whatever its outcome, leaves the entry under
every other name `M` as it was: present with the same target, or absent. For
`startTarget`, `stopTarget` and the four handlers. -/
theorem C14_start_stop_frame (c : Cache) (N M : String) (h : M ≠ N) :
    (∀ out : Outcome, Cache.Get (startTarget out c N).2 M = Cache.Get c M) ∧
    (∀ (target : Target) (out : Outcome),
      Cache.Get (stopTarget target out c N).2 M = Cache.Get c M) ∧
    (∀ (cap : Target → Outcome) (req : Request), req.Name = N →
      Cache.Get (ServiceManager.Start cap c req).2 M = Cache.Get c M ∧
      Cache.Get (ServiceManager.Stop cap c req).2 M = Cache.Get c M ∧
      Cache.Get (DockerManager.Start cap c req).2 M = Cache.Get c M ∧
      Cache.Get (DockerManager.Stop cap c req).2 M = Cache.Get c M) := by
  refine ⟨fun out => startTarget_Get_ne c out h, fun target out => stopTarget_Get_ne c target out h,
    ?_⟩
  intro cap req hreq
  subst hreq
  exact ⟨startTarget_Get_ne c _ h, stopTarget_Get_ne c _ _ h, startTarget_Get_ne c _ h,
    stopTarget_Get_ne c _ _ h⟩

/-- Witness of C14: calls on `svc-B` leave the entry of `svc-A`, and calls on
`svc-A` leave `svc-B` untracked. -/
theorem C14_start_stop_frame_witness :
    "svc-A" ≠ "svc-B" ∧
    Cache.Get (startTarget ("Bot host started service svc-B", none)
      [("svc-A", svcA), ("svc-B", svcB)] "svc-B").2 "svc-A" = some svcA ∧
    Cache.Get (stopTarget svcB ("Bot host stopped service svc-B", none)
      [("svc-A", svcA)] "svc-B").2 "svc-A" = some svcA ∧
    Cache.Get (ServiceManager.Start capOk [("svc-A", svcA)]
      { JobName := "job", Name := "svc-A" }).2 "svc-B" = none ∧
    Cache.Get (DockerManager.Stop capOk [("svc-A", svcA)]
      { JobName := "job", Name := "svc-A" }).2 "svc-B" = none :=
  ⟨by decide,
    (C14_start_stop_frame [("svc-A", svcA), ("svc-B", svcB)] "svc-B" "svc-A" (by decide)).1
      ("Bot host started service svc-B", none),
    (C14_start_stop_frame [("svc-A", svcA)] "svc-B" "svc-A" (by decide)).2.1 svcB
      ("Bot host stopped service svc-B", none),
    ((C14_start_stop_frame [("svc-A", svcA)] "svc-A" "svc-B" (by decide)).2.2 capOk
      { JobName := "job", Name := "svc-A" } rfl).1,
    ((C14_start_stop_frame [("svc-A", svcA)] "svc-A" "svc-B" (by decide)).2.2 capOk
      { JobName := "job", Name := "svc-A" } rfl).2.2.2⟩

/-! ## Recover: a successful entry processed after a failing one -/

theorem Recover_status_success (start : String → Target → Outcome) (c : Cache)
    (order : List String) (hc : Cache.WF c) (ho : IterationOrder c order)
    (resp : ResolveResponse) (err : Option GoError) (c1 : Cache)
    (h : StrategyManager.Recover start c order = some ((resp, err), c1)) :
    ∀ r ∈ resp.Response, r.Status = Status.SUCCESS := by
  rw [Recover_spec start c order hc ho] at h
  simp only [Option.some.injEq, Prod.mk.injEq] at h
  obtain ⟨⟨hresp, _⟩, _⟩ := h
  subst hresp
  intro r hr
  simp only [List.mem_map] at hr
  obtain ⟨k, _, hk⟩ := hr
  subst hk
  unfold responseOf
  cases Cache.Get c k <;> rfl

/-- C13 (refutation): there are no tracker with two entries, iteration order and
Start outcomes, the `Start()` of the first visited entry failing and that of the
second succeeding, for which `Recover` reports the second entry with status
FAIL. -/
theorem C13_no_later_success_reported_fail :
    ¬ ∃ (c : Cache) (k1 k2 : String) (t1 t2 : Target) (start : String → Target → Outcome)
        (resp : ResolveResponse) (err : Option GoError) (c1 : Cache) (r : StatusResponse),
      Cache.WF c ∧ Cache.ItemCount c = 2 ∧ IterationOrder c [k1, k2] ∧
      Cache.Get c k1 = some t1 ∧ Cache.Get c k2 = some t2 ∧
      (start k1 t1).2 ≠ none ∧ (start k2 t2).2 = none ∧
      StrategyManager.Recover start c [k1, k2] = some ((resp, err), c1) ∧
      resp.Response[1]? = some r ∧ r.Status = Status.FAIL := by
  rintro ⟨c, k1, k2, t1, t2, start, resp, err, c1, r, hc, _, ho, _, _, _, _, hrec, hr, hfail⟩
  have hs := Recover_status_success start c [k1, k2] hc ho resp err c1 hrec r
    (List.getElem?_mem hr)
  rw [hs] at hfail
  exact absurd hfail (by decide)

/-- C13 (amended): for every tracker with two entries, iteration order and Start
outcomes in which the `Start()` of the first visited entry fails and that of the
second succeeds, `Recover` returns and reports the second entry with status
SUCCESS and its own message. -/
theorem C13_later_success_reported_success (c : Cache) (k1 k2 : String) (t1 t2 : Target)
    (start : String → Target → Outcome) (hc : Cache.WF c) (_hn : Cache.ItemCount c = 2)
    (ho : IterationOrder c [k1, k2])
    (_h1 : Cache.Get c k1 = some t1) (h2 : Cache.Get c k2 = some t2)
    (_hf : (start k1 t1).2 ≠ none) (_hs : (start k2 t2).2 = none) :
    ∃ resp err c1,
      StrategyManager.Recover start c [k1, k2] = some ((resp, err), c1) ∧
      resp.Response[1]? = some { Status := Status.SUCCESS, Message := (start k2 t2).1 } := by
  refine ⟨_, _, _, Recover_spec start c [k1, k2] hc ho, ?_⟩
  simp [responseOf, h2]

/-- Witness of C13 (amended): `svc-A` is visited first and its `Start()` fails,
`svc-B` is visited second and its `Start()` succeeds. -/
theorem C13_later_success_reported_success_witness :
    Cache.WF [("svc-A", svcA), ("svc-B", svcB)] ∧
    Cache.ItemCount [("svc-A", svcA), ("svc-B", svcB)] = 2 ∧
    IterationOrder [("svc-A", svcA), ("svc-B", svcB)] ["svc-A", "svc-B"] ∧
    (startFailA "svc-A" svcA).2 ≠ none ∧ (startFailA "svc-B" svcB).2 = none ∧
    ∃ resp err c1,
      StrategyManager.Recover startFailA [("svc-A", svcA), ("svc-B", svcB)]
        ["svc-A", "svc-B"] = some ((resp, err), c1) ∧
      resp.Response[1]? =
        some { Status := Status.SUCCESS, Message := (startFailA "svc-B" svcB).1 } :=
  ⟨by decide, by rfl, by decide, by decide, by rfl,
    C13_later_success_reported_success [("svc-A", svcA), ("svc-B", svcB)] "svc-A" "svc-B"
      svcA svcB startFailA (by decide) (by rfl) (by decide) (by rfl) (by rfl) (by decide)
      (by rfl)⟩

/-! ## Recover: independence of the iteration order -/

theorem recoveredCache_congr (start : String → Target → Outcome) (c : Cache)
    (o1 o2 : List String) (h : ∀ k, k ∈ o1 ↔ k ∈ o2) :
    recoveredCache start c o1 = recoveredCache start c o2 := by
  unfold recoveredCache
  apply List.filter_congr
  intro e _
  have hd : decide (e.1 ∈ o1) = decide (e.1 ∈ o2) := by
    simp only [decide_eq_decide]
    exact h e.1
  rw [hd]

/-- C15: for a fixed tracker and fixed Start outcomes, any two iteration orders
give the same tracker after `Recover`, the same outcome for each name (so the
two sequences of outcomes are permutations of each other), and aggregated
errors that are both nil or both non-nil. -/
theorem C15_recover_order_independent (start : String → Target → Outcome) (c : Cache)
    (o1 o2 : List String) (hc : Cache.WF c) (h1 : IterationOrder c o1)
    (h2 : IterationOrder c o2) :
    ∃ r1 e1 c1 r2 e2 c2,
      StrategyManager.Recover start c o1 = some ((r1, e1), c1) ∧
      StrategyManager.Recover start c o2 = some ((r2, e2), c2) ∧
      c1 = c2 ∧
      r1.Response.Perm r2.Response ∧
      (∀ (i j : Nat) (k : String), o1[i]? = some k → o2[j]? = some k →
        ∃ r : StatusResponse, r1.Response[i]? = some r ∧ r2.Response[j]? = some r) ∧
      (e1 = none ↔ e2 = none) := by
  have hperm : o1.Perm o2 := List.Perm.trans h1 (List.Perm.symm h2)
  refine ⟨_, _, _, _, _, _, Recover_spec start c o1 hc h1, Recover_spec start c o2 hc h2,
    ?_, ?_, ?_, ?_⟩
  · exact recoveredCache_congr start c o1 o2 (fun k => List.Perm.mem_iff hperm)
  · exact List.Perm.map _ hperm
  · intro i j k hi hj
    exact ⟨responseOf start c k, by simp [hi], by simp [hj]⟩
  · exact Iff.rfl

/-- Witness of C15: `svc-A` and `svc-B` visited in the two possible orders, the
`Start()` of `svc-A` failing. -/
theorem C15_recover_order_independent_witness :
    Cache.WF [("svc-A", svcA), ("svc-B", svcB)] ∧
    IterationOrder [("svc-A", svcA), ("svc-B", svcB)] ["svc-A", "svc-B"] ∧
    IterationOrder [("svc-A", svcA), ("svc-B", svcB)] ["svc-B", "svc-A"] ∧
    ∃ r1 e1 c1 r2 e2 c2,
      StrategyManager.Recover startFailA [("svc-A", svcA), ("svc-B", svcB)]
        ["svc-A", "svc-B"] = some ((r1, e1), c1) ∧
      StrategyManager.Recover startFailA [("svc-A", svcA), ("svc-B", svcB)]
        ["svc-B", "svc-A"] = some ((r2, e2), c2) ∧
      c1 = c2 ∧
      r1.Response.Perm r2.Response ∧
      (∀ (i j : Nat) (k : String), ["svc-A", "svc-B"][i]? = some k →
        ["svc-B", "svc-A"][j]? = some k →
        ∃ r : StatusResponse, r1.Response[i]? = some r ∧ r2.Response[j]? = some r) ∧
      (e1 = none ↔ e2 = none) :=
  ⟨by decide, by decide, by decide,
    C15_recover_order_independent startFailA [("svc-A", svcA), ("svc-B", svcB)]
      ["svc-A", "svc-B"] ["svc-B", "svc-A"] (by decide) (by decide) (by decide)⟩

/-! ## Recover: every visited key is found -/

theorem not_mem_take_of_nodup {order : List String} (hnd : order.Nodup) {i : Nat} {k : String}
    (hik : order[i]? = some k) : k ∉ order.take i := by
  have hd : k ∈ order.drop i := by
    apply List.getElem?_mem (n := 0)
    rw [List.getElem?_drop]
    simpa using hik
  have hsplit : (order.take i ++ order.drop i).Nodup := by
    rw [List.take_append_drop]
    exact hnd
  intro hk
  exact (List.nodup_append.mp hsplit).2.2 hk hd

theorem recoverStep_Get_ne (start : String → Target → Outcome) (st st1 : LoopState)
    (k : String) (h : recoverStep start st k = some st1) (n : String) (hn : n ≠ k) :
    Cache.Get st1.cache n = Cache.Get st.cache n := by
  unfold recoverStep at h
  cases hg : Cache.Get st.cache k with
  | none => simp [hg] at h
  | some t =>
    simp only [hg, Option.some.injEq] at h
    subst h
    cases hs : (start k t).2 with
    | none => simp [Cache.Get_Delete_ne st.cache hn]
    | some e => simp

/-- C16: in a run of `Recover` on a well-formed tracker, the keys visited are
pairwise distinct, an iteration changes the entry of no key but the one it
processes, every visited key is found by `Get` in the tracker as the loop has
left it when the key is reached, and so `Recover` returns without reaching the
type assertion on a nil value. -/
theorem C16_recover_finds_every_key (start : String → Target → Outcome) (c : Cache)
    (order : List String) (hc : Cache.WF c) (ho : IterationOrder c order) :
    order.Nodup ∧
    (∀ (st st1 : LoopState) (k : String), recoverStep start st k = some st1 →
      ∀ n : String, n ≠ k → Cache.Get st1.cache n = Cache.Get st.cache n) ∧
    (∀ (i : Nat) (k : String), order[i]? = some k →
      ∃ st : LoopState,
        recoverLoop start (order.take i) { cache := c, err := none, responses := [] } =
          some st ∧
        (Cache.Get st.cache k).isSome = true ∧
        (recoverStep start st k).isSome = true) ∧
    (StrategyManager.Recover start c order).isSome = true := by
  have hnd : order.Nodup := IterationOrder.nodup hc ho
  refine ⟨hnd, ?_, ?_, ?_⟩
  · intro st st1 k h n hn
    exact recoverStep_Get_ne start st st1 k h n hn
  · intro i k hik
    have hk : k ∈ order := List.getElem?_mem hik
    have hkc : (Cache.Get c k).isSome = true :=
      (Cache.Get_isSome_iff c k).mpr ((IterationOrder.mem_iff ho k).mp hk)
    have hloop := recoverLoop_spec start (order.take i) c []
      (List.Nodup.sublist (List.take_sublist i order) hnd)
      (fun n hn => (IterationOrder.mem_iff ho n).mp (List.mem_of_mem_take hn))
    have hget : (Cache.Get (recoveredCache start c (order.take i)) k).isSome = true := by
      rw [Get_recoveredCache]
      have hnot : ¬ (k ∈ order.take i ∧ startSucceeds start c k = true) :=
        fun hcon => not_mem_take_of_nodup hnd hik hcon.1
      rw [if_neg hnot]
      exact hkc
    refine ⟨_, hloop, hget, ?_⟩
    obtain ⟨t, ht⟩ := Option.isSome_iff_exists.mp hget
    rw [recoverStep_nil_err start _ _ k t ht]
    rfl
  · rw [Recover_spec start c order hc ho]
    rfl

/-- Witness of C16: `svc-B` is visited and deleted first; `svc-A`, visited second,
is still found. -/
theorem C16_recover_finds_every_key_witness :
    Cache.WF [("svc-A", svcA), ("svc-B", svcB)] ∧
    IterationOrder [("svc-A", svcA), ("svc-B", svcB)] ["svc-B", "svc-A"] ∧
    recoverLoop startFailA (["svc-B", "svc-A"].take 1)
      { cache := [("svc-A", svcA), ("svc-B", svcB)], err := none, responses := [] } =
      some { cache := [("svc-A", svcA)], err := none,
             responses := [{ Status := Status.SUCCESS,
                             Message := "Bot host started service svc-B" }] } ∧
    (StrategyManager.Recover startFailA [("svc-A", svcA), ("svc-B", svcB)]
      ["svc-B", "svc-A"]).isSome = true :=
  ⟨by decide, by decide, by rfl,
    (C16_recover_finds_every_key startFailA [("svc-A", svcA), ("svc-B", svcB)]
      ["svc-B", "svc-A"] (by decide) (by decide)).2.2.2⟩

end ChaosBot
